import Mathlib

/-!
Verification of the plugin lifecycle and session-bridging subsystem of the
ai-knowledge-base repository, as a shallow embedding in Lean 4.

The embedding covers:
* `api/plugins/session_mapper.py` (`PluginSessionMapper`): the external-session
  to agent-session map with lazy and swept timeout eviction and the single-slot
  pending-question store.  The Python `dict` is modelled as an association list
  with dict-update semantics; wall-clock time (`time.time()`) is passed in
  explicitly as an integer `now` parameter.
* `api/plugins/lifecycle.py` (`PluginLifecycle`): the load/register/start/stop
  state machine.  The effectful parts (importing the module, calling the
  plugin's register function, calling the start/stop hooks) are passed in as
  `Except String _` oracles describing the outcome the Python runtime produced.
* `api/plugins/discovery.py` / `registry.py` / `manager.py`: discovery over
  ordered search roots with first-found-wins deduplication, dict-backed
  registry, and `install_plugin`.  The filesystem scan of one root is
  abstracted as the list of plugin records the scan yields.
* `plugins/bundled/yunzhijia/handler.py` (`YunzhijiaHandler`): content
  cleaning, FAQ matching, stop-command detection, the stop-command path and
  `_process_agent_stream`, with outbound sends modelled as a list of messages
  and the agent stream as a list of already-parsed events.
-/

/-- One entry of the session map, mirroring `SessionInfo` in
`api/plugins/session_mapper.py` (`pending_questions` payloads are kept
opaque as strings). -/
structure SessionInfo where
  agent_session_id : String
  last_active : Int
  pending_questions : Option (List String) := none
deriving DecidableEq, Repr

/-- Association-list lookup with Python-dict semantics (keys are unique in a
dict; we return the first matching entry). -/
def mapLookup (m : List (String × SessionInfo)) (k : String) : Option SessionInfo :=
  (m.find? (fun kv => kv.1 == k)).map (·.2)

/-- Association-list update with Python-dict assignment semantics: replace the
entry in place if the key is present, otherwise append. -/
def mapUpsert : List (String × SessionInfo) → String → SessionInfo → List (String × SessionInfo)
| [], k, v => [(k, v)]
| kv :: rest, k, v => if kv.1 == k then (k, v) :: rest else kv :: mapUpsert rest k v

/-- Association-list deletion (`del d[k]`). -/
def mapErase (m : List (String × SessionInfo)) (k : String) : List (String × SessionInfo) :=
  m.filter (fun kv => !(kv.1 == k))

/-- State of a `PluginSessionMapper`: the configured timeout, the channel id
(used only for logging in the source) and the backing map. -/
structure Mapper where
  timeout_seconds : Int
  channel_id : String
  session_map : List (String × SessionInfo)
deriving DecidableEq, Repr

namespace Mapper

/-- `PluginSessionMapper.get_or_create`: returns the still-valid agent session
id, or `none` for a missing or expired entry, deleting the entry when expired
(lazy eviction).  `now` stands for `time.time()`. -/
def get_or_create (m : Mapper) (now : Int) (external_session_id : String) :
    Option String × Mapper :=
  match mapLookup m.session_map external_session_id with
  | none => (none, m)
  | some info =>
    if now - info.last_active > m.timeout_seconds then
      (none, { m with session_map := mapErase m.session_map external_session_id })
    else
      (some info.agent_session_id, m)

/-- `PluginSessionMapper.update_activity`: upsert a fresh `SessionInfo` whose
`last_active` is `now` and whose `pending_questions` is the dataclass default
`None`. -/
def update_activity (m : Mapper) (now : Int) (external_session_id agent_session_id : String) :
    Mapper :=
  { m with session_map := mapUpsert m.session_map external_session_id ⟨agent_session_id, now, none⟩ }

/-- `PluginSessionMapper.set_pending_questions`: store the questions when the
entry exists, otherwise do nothing. -/
def set_pending_questions (m : Mapper) (external_session_id : String) (questions : List String) :
    Mapper :=
  match mapLookup m.session_map external_session_id with
  | none => m
  | some info =>
    { m with session_map :=
        mapUpsert m.session_map external_session_id ({ info with pending_questions := some questions }) }

/-- Python truthiness of the `pending_questions` field: `None` and the empty
list are falsy. -/
def questionsTruthy : Option (List String) → Bool
| none => false
| some [] => false
| some (_ :: _) => true

/-- `PluginSessionMapper.get_and_clear_pending_questions`: return the stored
questions, clearing the slot only when the stored value is truthy (the source
guards the clear with `if questions:`). -/
def get_and_clear_pending_questions (m : Mapper) (external_session_id : String) :
    Option (List String) × Mapper :=
  match mapLookup m.session_map external_session_id with
  | none => (none, m)
  | some info =>
    if questionsTruthy info.pending_questions then
      (info.pending_questions,
       { m with session_map :=
           mapUpsert m.session_map external_session_id ({ info with pending_questions := none }) })
    else
      (info.pending_questions, m)

/-- `PluginSessionMapper.cleanup_expired`: sweep every entry whose elapsed
time strictly exceeds the timeout. -/
def cleanup_expired (m : Mapper) (now : Int) : Mapper :=
  { m with session_map :=
      m.session_map.filter (fun kv => !(now - kv.2.last_active > m.timeout_seconds : Bool)) }

end Mapper

theorem mapLookup_cons_ne (kv : String × SessionInfo) (rest : List (String × SessionInfo))
    (k : String) (h : ¬ kv.1 = k) : mapLookup (kv :: rest) k = mapLookup rest k := by
  unfold mapLookup
  rw [List.find?_cons_of_neg _ (by simpa using h)]

theorem mapLookup_upsert_self (m : List (String × SessionInfo)) (k : String) (v : SessionInfo) :
    mapLookup (mapUpsert m k v) k = some v := by
  induction m with
  | nil =>
    unfold mapUpsert mapLookup
    rw [List.find?_cons_of_pos _ (by simp)]
    rfl
  | cons kv rest ih =>
    by_cases h : kv.1 = k
    · unfold mapUpsert
      simp only [h, beq_self_eq_true, if_true]
      unfold mapLookup
      rw [List.find?_cons_of_pos _ (by simp)]
      rfl
    · unfold mapUpsert
      simp only [beq_iff_eq, h, if_false]
      rw [mapLookup_cons_ne _ _ _ h]
      exact ih

theorem mapLookup_erase_self (m : List (String × SessionInfo)) (k : String) :
    mapLookup (mapErase m k) k = none := by
  induction m with
  | nil => simp [mapLookup, mapErase]
  | cons kv rest ih =>
    by_cases h : kv.1 = k
    · unfold mapErase at ih ⊢
      rw [List.filter_cons, if_neg (by simp [h])]
      exact ih
    · unfold mapErase at ih ⊢
      rw [List.filter_cons, if_pos (by simp [h])]
      rw [mapLookup_cons_ne _ _ _ h]
      exact ih

theorem get_or_create_after_update (m : Mapper) (t now : Int) (x a : String) :
    (m.update_activity t x a).get_or_create now x =
      if now - t > m.timeout_seconds then
        (none, { m.update_activity t x a with
                  session_map := mapErase (m.update_activity t x a).session_map x })
      else (some a, m.update_activity t x a) := by
  have hl := mapLookup_upsert_self m.session_map x ⟨a, t, none⟩
  simp only [Mapper.get_or_create, Mapper.update_activity] at *
  rw [hl]

/-- C2: with timeout `T`, `get_or_create` returns `none` when no entry exists;
on an existing entry it deletes and returns `none` exactly when
`now - last_active > T`, and returns the mapped agent id otherwise; after
`update_activity x a` at time `t`, querying at elapsed `T - 1` returns `a`
keeping the entry, and querying at elapsed `T + 1` returns `none` and removes
the entry. -/
theorem get_or_create_timeout_spec (m : Mapper) (x a : String) (t : Int) :
    (mapLookup m.session_map x = none → (m.get_or_create t x) = (none, m)) ∧
    (∀ info, mapLookup m.session_map x = some info →
      (t - info.last_active > m.timeout_seconds →
        m.get_or_create t x = (none, { m with session_map := mapErase m.session_map x })) ∧
      (¬ (t - info.last_active > m.timeout_seconds) →
        m.get_or_create t x = (some info.agent_session_id, m))) ∧
    ((m.update_activity t x a).get_or_create (t + m.timeout_seconds - 1) x
        = (some a, m.update_activity t x a)) ∧
    ((m.update_activity t x a).get_or_create (t + m.timeout_seconds + 1) x).1 = none ∧
    (mapLookup ((m.update_activity t x a).get_or_create (t + m.timeout_seconds + 1) x).2.session_map x
        = none) := by
  refine ⟨?_, ?_, ?_, ?_, ?_⟩
  · intro h
    simp [Mapper.get_or_create, h]
  · intro info h
    constructor
    · intro hgt
      simp [Mapper.get_or_create, h, hgt]
    · intro hle
      simp [Mapper.get_or_create, h, hle]
  · rw [get_or_create_after_update, if_neg (by omega)]
  · rw [get_or_create_after_update, if_pos (by omega)]
  · rw [get_or_create_after_update, if_pos (by omega)]
    exact mapLookup_erase_self _ x

/-- Witness for `get_or_create_timeout_spec` at a concrete mapper. -/
theorem get_or_create_timeout_spec_witness :
    (Mapper.get_or_create ⟨3600, "yunzhijia", []⟩ 0 "x") = (none, ⟨3600, "yunzhijia", []⟩) ∧
    ((Mapper.update_activity ⟨3600, "yunzhijia", []⟩ 0 "x" "a").get_or_create 3599 "x").1
      = some "a" := by
  have h := get_or_create_timeout_spec ⟨3600, "yunzhijia", []⟩ "x" "a" 0
  refine ⟨h.1 (by decide), ?_⟩
  have h3 := h.2.2.1
  simp only [show (0 : Int) + 3600 - 1 = 3599 by decide] at h3
  rw [h3]

/-- C10: `update_activity x a` replaces the whole entry for `x`, so any
pending questions previously stored are discarded: a subsequent
`get_and_clear_pending_questions x` returns `none` and leaves the mapper
unchanged, with the entry for `x` still present and mapped to `a`. -/
theorem update_activity_discards_pending (m : Mapper) (t : Int) (x a : String) :
    (m.update_activity t x a).get_and_clear_pending_questions x
        = (none, m.update_activity t x a) ∧
    mapLookup (m.update_activity t x a).session_map x
        = some { agent_session_id := a, last_active := t, pending_questions := none } := by
  have hl : mapLookup (m.update_activity t x a).session_map x
      = some { agent_session_id := a, last_active := t, pending_questions := none } := by
    simp [Mapper.update_activity, mapLookup_upsert_self]
  exact ⟨by simp [Mapper.get_and_clear_pending_questions, hl, Mapper.questionsTruthy], hl⟩

/-- Plugin lifecycle states, mirroring `PluginState` in
`api/plugins/registry.py`. -/
inductive PluginState where
| discovered
| loaded
| registered
| started
| stopped
| error
deriving DecidableEq, Repr

/-- The mutable fields of `PluginInstance` that the lifecycle touches
(`api/plugins/registry.py`).  `plugin_object` and `api` are opaque handles. -/
structure PluginInstance where
  state : PluginState := PluginState.discovered
  enabled : Bool := false
  api : Option String := none
  plugin_object : Option String := none
  error : Option String := none
deriving DecidableEq, Repr

/-- `PluginLifecycle.load` (`api/plugins/lifecycle.py`): the whole body runs
inside `try`, with no check of the current state.  The import machinery and
entry-point resolution are abstracted as `resolution`: `Except.ok f` when the
module imports and yields a callable register function `f`, `Except.error e`
when any step raises with message `e`.  On success the instance stores the
register function and moves to `loaded`; on failure it moves to `error` with
the message recorded. -/
def lifecycleLoad (inst : PluginInstance) (resolution : Except String String) :
    Bool × PluginInstance :=
  match resolution with
  | Except.ok f => (true, { inst with plugin_object := some f, state := PluginState.loaded })
  | Except.error e => (false, { inst with state := PluginState.error, error := some e })

/-- `PluginLifecycle.register`: requires state `LOADED`, otherwise fails
without touching the instance.  The call of the plugin's register function is
abstracted as `callResult`: `Except.ok (some obj)` when it returns a plugin
object, `Except.ok none` when it returns `None`, `Except.error e` when it
raises. -/
def lifecycleRegister (inst : PluginInstance) (api : String)
    (callResult : Except String (Option String)) : Bool × PluginInstance :=
  if inst.state ≠ PluginState.loaded then (false, inst)
  else
    match callResult with
    | Except.ok r =>
      (true,
       { inst with
          plugin_object := (match r with | some obj => some obj | none => inst.plugin_object),
          api := some api,
          state := PluginState.registered })
    | Except.error e => (false, { inst with state := PluginState.error, error := some e })

/-- `PluginLifecycle.start`: requires state `REGISTERED`, otherwise fails
without touching the instance.  The optional `on_start` hook call is abstracted
as `hookResult` (`Except.ok ()` covers both the hook succeeding and the hook
being absent). -/
def lifecycleStart (inst : PluginInstance) (hookResult : Except String Unit) :
    Bool × PluginInstance :=
  if inst.state ≠ PluginState.registered then (false, inst)
  else
    match hookResult with
    | Except.ok _ => (true, { inst with state := PluginState.started })
    | Except.error e => (false, { inst with state := PluginState.error, error := some e })

/-- `PluginLifecycle.stop`: a no-op success when the instance is not
`STARTED`; on a hook exception it records the error but leaves the state as
it was. -/
def lifecycleStop (inst : PluginInstance) (hookResult : Except String Unit) :
    Bool × PluginInstance :=
  if inst.state ≠ PluginState.started then (true, inst)
  else
    match hookResult with
    | Except.ok _ => (true, { inst with state := PluginState.stopped })
    | Except.error e => (false, { inst with error := some e })

/-- C1 counterexample: `load` performs no predecessor-state check, so invoking
it on an instance in state `started` (not the claimed predecessor
`discovered`) with a successfully resolving module returns success and moves
the state to `loaded` — it neither fails nor leaves the state unchanged. -/
theorem load_skips_state_check_counterexample :
    (lifecycleLoad { state := PluginState.started, enabled := true, api := some "api",
                     plugin_object := some "f", error := none } (Except.ok "g")).1 = true ∧
    (lifecycleLoad { state := PluginState.started, enabled := true, api := some "api",
                     plugin_object := some "f", error := none } (Except.ok "g")).2.state
      = PluginState.loaded := by
  constructor <;> rfl

/-- C1 amended: `register` and `start` do fail without mutating the instance
when invoked outside their defined predecessor states (`loaded`,
`registered`); `start` from `discovered` fails leaving the state at
`discovered`; a successful `register` only happens from `loaded` and a
successful `start` only from `registered`, so `started` is reached only
through `loaded` then `registered`.  `load`, however, performs no
predecessor-state check at all. -/
theorem lifecycle_state_machine (i : PluginInstance) (api : String)
    (c : Except String (Option String)) (h : Except String Unit) :
    (i.state ≠ PluginState.loaded → lifecycleRegister i api c = (false, i)) ∧
    (i.state ≠ PluginState.registered → lifecycleStart i h = (false, i)) ∧
    (i.state = PluginState.discovered →
      lifecycleStart i h = (false, i) ∧ (lifecycleStart i h).2.state = PluginState.discovered) ∧
    ((lifecycleRegister i api c).1 = true → i.state = PluginState.loaded) ∧
    ((lifecycleStart i h).1 = true → i.state = PluginState.registered) := by
  refine ⟨?_, ?_, ?_, ?_, ?_⟩
  · intro hs
    simp [lifecycleRegister, hs]
  · intro hs
    simp [lifecycleStart, hs]
  · intro hs
    have hne : i.state ≠ PluginState.registered := by rw [hs]; decide
    constructor
    · simp [lifecycleStart, hne]
    · simp [lifecycleStart, hne, hs]
  · intro hok
    by_contra hs
    simp [lifecycleRegister, hs] at hok
  · intro hok
    by_contra hs
    simp [lifecycleStart, hs] at hok

/-- Witness for `lifecycle_state_machine` at a concrete instance in state
`discovered`. -/
theorem lifecycle_state_machine_witness :
    lifecycleStart { state := PluginState.discovered } (Except.ok ()) =
      (false, { state := PluginState.discovered }) := by
  exact ((lifecycle_state_machine { state := PluginState.discovered } "api"
    (Except.ok none) (Except.ok ())).2.2.1 rfl).1

/-- C3: an exception inside `load`, inside `register`'s plugin call (with the
`LOADED` precondition met), or inside `start`'s hook call (with the
`REGISTERED` precondition met) is captured on the instance — state becomes
`error` and the message is stored — and the transition returns `false`
instead of propagating. -/
theorem lifecycle_errors_captured (i : PluginInstance) (api e : String) :
    (lifecycleLoad i (Except.error e)
      = (false, { i with state := PluginState.error, error := some e })) ∧
    (i.state = PluginState.loaded →
      lifecycleRegister i api (Except.error e)
        = (false, { i with state := PluginState.error, error := some e })) ∧
    (i.state = PluginState.registered →
      lifecycleStart i (Except.error e)
        = (false, { i with state := PluginState.error, error := some e })) := by
  refine ⟨rfl, ?_, ?_⟩
  · intro hs
    simp [lifecycleRegister, hs]
  · intro hs
    simp [lifecycleStart, hs]

/-- Witness for `lifecycle_errors_captured` at a concrete loaded instance. -/
theorem lifecycle_errors_captured_witness :
    lifecycleRegister { state := PluginState.loaded } "api" (Except.error "boom")
      = (false, { state := PluginState.error, error := some "boom" }) := by
  exact (lifecycle_errors_captured { state := PluginState.loaded } "api" "boom").2.1 rfl

/-- C9 counterexample: a successful transition does not clear the `error`
field.  An instance that previously recorded an error (state `error`, error
message stored) is re-loaded successfully: `load` returns success and moves to
`loaded`, yet the stale error message is still present. -/
theorem error_not_cleared_counterexample :
    (lifecycleLoad { state := PluginState.error, error := some "boom" } (Except.ok "f")).1
        = true ∧
    (lifecycleLoad { state := PluginState.error, error := some "boom" } (Except.ok "f")).2.state
        = PluginState.loaded ∧
    (lifecycleLoad { state := PluginState.error, error := some "boom" } (Except.ok "f")).2.error
        = some "boom" := by
  refine ⟨rfl, rfl, rfl⟩

/-- C9 amended: the `error` field holds the last failure reason, but no
successful transition ever clears it — successful `load`, `register` and
`start` leave `error` exactly as it was, while a failing transition overwrites
it with the new message. -/
theorem error_field_never_cleared (i : PluginInstance) (api e f : String)
    (r : Option String) :
    ((lifecycleLoad i (Except.ok f)).2.error = i.error) ∧
    ((lifecycleRegister i api (Except.ok r)).2.error = i.error) ∧
    ((lifecycleStart i (Except.ok ())).2.error = i.error) ∧
    ((lifecycleLoad i (Except.error e)).2.error = some e) := by
  refine ⟨rfl, ?_, ?_, rfl⟩
  · by_cases hs : i.state = PluginState.loaded
    · simp [lifecycleRegister, hs]
    · simp [lifecycleRegister, hs]
  · by_cases hs : i.state = PluginState.registered
    · simp [lifecycleStart, hs]
    · simp [lifecycleStart, hs]

/-- A discovered plugin record: the identity-bearing part of a
`PluginInstance` produced by `PluginDiscovery._load_manifest`
(`api/plugins/discovery.py`).  `path` distinguishes the copies of a duplicate
id found under different roots. -/
structure PluginRec where
  id : String
  source : String
  path : String
deriving DecidableEq, Repr

/-- The inner loop of `PluginDiscovery.discover_all` over the plugins scanned
from one search root: a plugin whose id is already in `seen_ids` is dropped
with a warning, otherwise it is appended and its id recorded. -/
def scanRoot : List String → List PluginRec → List String × List PluginRec
| seen, [] => (seen, [])
| seen, p :: ps =>
  if seen.contains p.id then scanRoot seen ps
  else ((scanRoot (p.id :: seen) ps).1, p :: (scanRoot (p.id :: seen) ps).2)

/-- The outer loop of `discover_all` over the ordered search roots, threading
`seen_ids` across roots.  Each root is abstracted as the list of records its
directory scan yields (`_scan_directory`). -/
def discoverAllAux : List String → List (List PluginRec) → List PluginRec
| _, [] => []
| seen, r :: rs => (scanRoot seen r).2 ++ discoverAllAux (scanRoot seen r).1 rs

/-- `PluginDiscovery.discover_all`: scan the roots in priority order with
first-found-wins deduplication by id. -/
def discover_all (roots : List (List PluginRec)) : List PluginRec :=
  discoverAllAux [] roots

/-- The registry's backing dict (`PluginRegistry._plugins`), as an
association list keyed by plugin id. -/
def regUpsert : List (String × PluginRec) → PluginRec → List (String × PluginRec)
| [], p => [(p.id, p)]
| kv :: rest, p => if kv.1 == p.id then (p.id, p) :: rest else kv :: regUpsert rest p

/-- `PluginRegistry.register`: dict assignment — it overwrites an existing
entry for the same id (after logging a warning). -/
def registryRegister (reg : List (String × PluginRec)) (p : PluginRec) :
    List (String × PluginRec) :=
  regUpsert reg p

/-- Registering a list of instances in order, as `PluginManager.load_all`
does with the discovery output. -/
def registerAll (reg : List (String × PluginRec)) (ps : List PluginRec) :
    List (String × PluginRec) :=
  ps.foldl registryRegister reg

/-- `PluginRegistry.get`. -/
def regGet (reg : List (String × PluginRec)) (i : String) : Option PluginRec :=
  (reg.find? (fun kv => kv.1 == i)).map (·.2)

/-- `PluginRegistry.has`. -/
def regHas (reg : List (String × PluginRec)) (i : String) : Bool :=
  reg.any (fun kv => kv.1 == i)

theorem scanRoot_seen_contains (l : List PluginRec) (seen : List String) (i : String) :
    (scanRoot seen l).1.contains i = (seen.contains i || l.any (fun p => p.id == i)) := by
  induction l generalizing seen with
  | nil => simp [scanRoot]
  | cons p ps ih =>
    by_cases h : seen.contains p.id = true
    · rw [scanRoot, if_pos h, ih, List.any_cons]
      by_cases hip : p.id = i
      · subst hip
        rw [show (p.id == p.id) = true by simp, Bool.true_or, h, Bool.true_or]
        rfl
      · rw [show (p.id == i) = false by simpa using hip, Bool.false_or]
    · rw [scanRoot, if_neg h, ih, List.contains_cons, List.any_cons]
      by_cases hip : p.id = i
      · subst hip
        simp
      · rw [show (i == p.id) = false by simpa using fun hh : i = p.id => hip hh.symm,
            show (p.id == i) = false by simpa using hip, Bool.false_or, Bool.false_or]

theorem scanRoot_filter (l : List PluginRec) (seen : List String) (i : String) :
    (scanRoot seen l).2.filter (fun p => p.id == i)
      = if seen.contains i then [] else (l.find? (fun p => p.id == i)).toList := by
  induction l generalizing seen with
  | nil => simp [scanRoot]
  | cons p ps ih =>
    by_cases h : seen.contains p.id = true
    · rw [scanRoot, if_pos h, ih]
      by_cases hip : p.id = i
      · subst hip
        rw [if_pos h, if_pos h]
      · rw [List.find?_cons_of_neg _ (by simpa using hip)]
    · rw [scanRoot, if_neg h, List.filter_cons, ih, List.contains_cons]
      by_cases hip : p.id = i
      · subst hip
        rw [if_pos (by simp), List.find?_cons_of_pos _ (by simp),
            if_pos (by rw [show (p.id == p.id) = true by simp, Bool.true_or]),
            if_neg (by simpa using h)]
        rfl
      · rw [if_neg (by simpa using hip), List.find?_cons_of_neg _ (by simpa using hip),
            show (i == p.id) = false by simpa using fun hh : i = p.id => hip hh.symm,
            Bool.false_or]

theorem discoverAllAux_filter (roots : List (List PluginRec)) (seen : List String) (i : String) :
    (discoverAllAux seen roots).filter (fun p => p.id == i)
      = if seen.contains i then [] else (roots.flatten.find? (fun p => p.id == i)).toList := by
  induction roots generalizing seen with
  | nil => simp [discoverAllAux]
  | cons r rs ih =>
    rw [discoverAllAux, List.filter_append, ih, scanRoot_filter, scanRoot_seen_contains,
        List.flatten_cons, List.find?_append]
    by_cases h : seen.contains i = true
    · rw [if_pos h, if_pos h, if_pos (by rw [h, Bool.true_or]), List.nil_append]
    · rw [if_neg h, if_neg h, show seen.contains i = false from by simpa using h,
          Bool.false_or]
      by_cases hr : r.any (fun p => p.id == i) = true
      · obtain ⟨q, hq⟩ := Option.isSome_iff_exists.mp (List.find?_isSome.mpr
          (List.any_eq_true.mp hr))
        rw [if_pos hr, hq, Option.or_some, List.append_nil]
      · have hnone : r.find? (fun p => p.id == i) = none := by
          rw [List.find?_eq_none]
          intro x hx hxb
          exact hr (List.any_eq_true.mpr ⟨x, hx, hxb⟩)
        rw [if_neg hr, hnone, Option.none_or, Option.toList_none, List.nil_append]

theorem regGet_cons_pos (kv : String × PluginRec) (rest : List (String × PluginRec))
    (i : String) (h : kv.1 = i) : regGet (kv :: rest) i = some kv.2 := by
  rw [regGet, List.find?_cons_of_pos _ (by simpa using h)]
  rfl

theorem regGet_cons_neg (kv : String × PluginRec) (rest : List (String × PluginRec))
    (i : String) (h : ¬ kv.1 = i) : regGet (kv :: rest) i = regGet rest i := by
  rw [regGet, List.find?_cons_of_neg _ (by simpa using h)]
  rfl

theorem regGet_upsert (reg : List (String × PluginRec)) (p : PluginRec) (i : String) :
    regGet (regUpsert reg p) i = if p.id == i then some p else regGet reg i := by
  induction reg with
  | nil =>
    by_cases h : p.id = i
    · rw [regUpsert, regGet_cons_pos _ _ _ h, if_pos (by simpa using h)]
    · rw [regUpsert, regGet_cons_neg _ _ _ h, if_neg (by simpa using h)]
  | cons kv rest ih =>
    by_cases hk : kv.1 = p.id
    · rw [regUpsert, if_pos (by simpa using hk)]
      by_cases h : p.id = i
      · rw [regGet_cons_pos _ _ _ h, if_pos (by simpa using h)]
      · rw [regGet_cons_neg _ _ _ h, if_neg (by simpa using h),
            regGet_cons_neg _ _ _ (by rw [hk]; exact h)]
    · rw [regUpsert, if_neg (by simpa using hk)]
      by_cases hki : kv.1 = i
      · have hpi : ¬ p.id = i := fun hh => hk (hki.trans hh.symm)
        rw [regGet_cons_pos _ _ _ hki, if_neg (by simpa using hpi),
            regGet_cons_pos _ _ _ hki]
      · rw [regGet_cons_neg _ _ _ hki, ih, regGet_cons_neg _ _ _ hki]

/-- Last-written-wins lookup over a plain instance list: the reference result
of folding dict assignments into an initially empty dict. -/
def findLastRec : List PluginRec → String → Option PluginRec
| [], _ => none
| p :: ps, i =>
  match findLastRec ps i with
  | some q => some q
  | none => if p.id == i then some p else none

theorem regGet_registerAll (ps : List PluginRec) (reg : List (String × PluginRec)) (i : String) :
    regGet (registerAll reg ps) i
      = match findLastRec ps i with
        | some q => some q
        | none => regGet reg i := by
  induction ps generalizing reg with
  | nil => rfl
  | cons p ps ih =>
    rw [registerAll, List.foldl_cons]
    rw [show List.foldl registryRegister (registryRegister reg p) ps
          = registerAll (regUpsert reg p) ps from rfl, ih]
    cases hf : findLastRec ps i with
    | some q => rw [findLastRec, hf]
    | none =>
      rw [findLastRec, hf, regGet_upsert]
      by_cases h : p.id = i
      · rw [if_pos (by simpa using h), if_pos (by simpa using h)]
      · rw [if_neg (by simpa using h), if_neg (by simpa using h)]

theorem findLastRec_of_filter_nil (ps : List PluginRec) (i : String)
    (h : ps.filter (fun p => p.id == i) = []) : findLastRec ps i = none := by
  induction ps with
  | nil => rfl
  | cons p ps ih =>
    rw [List.filter_cons] at h
    by_cases hpi : p.id = i
    · rw [if_pos (by simpa using hpi)] at h
      exact absurd h (by simp)
    · rw [if_neg (by simpa using hpi)] at h
      rw [findLastRec, ih h, if_neg (by simpa using hpi)]

theorem findLastRec_eq_find?_of_unique (ps : List PluginRec) (i : String)
    (h : ps.filter (fun p => p.id == i) = (ps.find? (fun p => p.id == i)).toList) :
    findLastRec ps i = ps.find? (fun p => p.id == i) := by
  induction ps with
  | nil => rfl
  | cons p ps ih =>
    by_cases hpi : p.id = i
    · rw [List.filter_cons, if_pos (by simpa using hpi),
          List.find?_cons_of_pos _ (by simpa using hpi)] at h
      have hnil : ps.filter (fun p => p.id == i) = [] := by
        simpa using congrArg List.tail h
      rw [findLastRec, findLastRec_of_filter_nil ps i hnil,
          List.find?_cons_of_pos _ (by simpa using hpi), if_pos (by simpa using hpi)]
    · rw [List.filter_cons, if_neg (by simpa using hpi),
          List.find?_cons_of_neg _ (by simpa using hpi)] at h
      rw [findLastRec, List.find?_cons_of_neg _ (by simpa using hpi), ih h]
      cases hf : ps.find? (fun p => p.id == i) with
      | some q => rfl
      | none => rw [if_neg (by simpa using hpi)]

theorem find?_eq_head?_of_filter (l : List PluginRec) (p : PluginRec → Bool) :
    l.find? p = (l.filter p).head? := by
  induction l with
  | nil => rfl
  | cons a as ih =>
    by_cases h : p a = true
    · rw [List.find?_cons_of_pos _ h, List.filter_cons, if_pos h, List.head?_cons]
    · rw [List.find?_cons_of_neg _ h, List.filter_cons, if_neg h, ih]

/-- C6: for any ordered list of search roots (each abstracted as the records
its directory scan yields) and any plugin id, the discovery output contains
exactly the first-found record with that id — duplicates from later roots are
dropped — and after `load_all` registers the discovery output into an empty
registry, `registry.get id` returns that same first-found record.  In
particular, for an id occurring under two roots the Registry holds exactly one
instance for it, the one from the earlier-priority root. -/
theorem mem_keys_regUpsert (reg : List (String × PluginRec)) (p : PluginRec) (x : String) :
    x ∈ (regUpsert reg p).map Prod.fst ↔ x ∈ reg.map Prod.fst ∨ x = p.id := by
  induction reg with
  | nil => simp [regUpsert, eq_comm]
  | cons kv rest ih =>
    by_cases hk : kv.1 = p.id
    · rw [regUpsert, if_pos (by simpa using hk)]
      simp [hk, eq_comm, or_comm]
    · rw [regUpsert, if_neg (by simpa using hk)]
      simp only [List.map_cons, List.mem_cons, ih]
      tauto

theorem nodupKeys_regUpsert (reg : List (String × PluginRec)) (p : PluginRec)
    (h : (reg.map Prod.fst).Nodup) : ((regUpsert reg p).map Prod.fst).Nodup := by
  induction reg with
  | nil => simp [regUpsert]
  | cons kv rest ih =>
    rw [List.map_cons, List.nodup_cons] at h
    by_cases hk : kv.1 = p.id
    · rw [regUpsert, if_pos (by simpa using hk)]
      rw [List.map_cons, List.nodup_cons]
      exact ⟨by rw [← hk]; exact h.1, h.2⟩
    · rw [regUpsert, if_neg (by simpa using hk)]
      rw [List.map_cons, List.nodup_cons]
      refine ⟨fun hmem => ?_, ih h.2⟩
      rcases (mem_keys_regUpsert rest p kv.1).mp hmem with hin | heq
      · exact h.1 hin
      · exact hk heq

theorem nodupKeys_registerAll (ps : List PluginRec) (reg : List (String × PluginRec))
    (h : (reg.map Prod.fst).Nodup) : ((registerAll reg ps).map Prod.fst).Nodup := by
  induction ps generalizing reg with
  | nil => exact h
  | cons p ps ih =>
    rw [registerAll, List.foldl_cons]
    exact ih (regUpsert reg p) (nodupKeys_regUpsert reg p h)

theorem filterKeys_eq_find?_of_nodup (reg : List (String × PluginRec)) (i : String)
    (h : (reg.map Prod.fst).Nodup) :
    reg.filter (fun kv => kv.1 == i) = (reg.find? (fun kv => kv.1 == i)).toList := by
  induction reg with
  | nil => rfl
  | cons kv rest ih =>
    rw [List.map_cons, List.nodup_cons] at h
    by_cases hk : kv.1 = i
    · rw [List.filter_cons, if_pos (by simpa using hk),
          List.find?_cons_of_pos _ (by simpa using hk)]
      have hnil : rest.filter (fun kv => kv.1 == i) = [] := by
        rw [List.filter_eq_nil_iff]
        intro x hx hxb
        exact h.1 (by rw [hk, ← show x.1 = i by simpa using hxb]; exact List.mem_map_of_mem _ hx)
      rw [hnil]
      rfl
    · rw [List.filter_cons, if_neg (by simpa using hk),
          List.find?_cons_of_neg _ (by simpa using hk), ih h.2]

/-- C6: for any ordered list of search roots (each abstracted as the records
its directory scan yields) and any plugin id, (a) the discovery output
contains exactly the first-found record with that id — duplicates from later
roots are dropped rather than replacing it; (b) after `load_all` registers the
discovery output into an empty registry, `registry.get id` returns that same
first-found record; and (c) the registry holds exactly one entry for the id
when it occurs at all (and none otherwise).  In particular, for an id
occurring under two roots the Registry contains exactly one instance for it,
the one from the earlier-priority root. -/
theorem discovery_first_found_wins (roots : List (List PluginRec)) (i : String) :
    (discover_all roots).filter (fun p => p.id == i)
        = (roots.flatten.find? (fun p => p.id == i)).toList ∧
    regGet (registerAll [] (discover_all roots)) i
        = roots.flatten.find? (fun p => p.id == i) ∧
    ((registerAll [] (discover_all roots)).filter (fun kv => kv.1 == i)).length
        = ((roots.flatten.find? (fun p => p.id == i)).toList).length := by
  have hfilter : (discover_all roots).filter (fun p => p.id == i)
      = (roots.flatten.find? (fun p => p.id == i)).toList := by
    rw [discover_all, discoverAllAux_filter, if_neg (by simp)]
  have hjoin : (discover_all roots).find? (fun p => p.id == i)
      = roots.flatten.find? (fun p => p.id == i) := by
    rw [find?_eq_head?_of_filter, hfilter]
    cases roots.flatten.find? (fun p => p.id == i) <;> rfl
  have huniq : (discover_all roots).filter (fun p => p.id == i)
      = ((discover_all roots).find? (fun p => p.id == i)).toList := by
    rw [hjoin, hfilter]
  have hget : regGet (registerAll [] (discover_all roots)) i
      = roots.flatten.find? (fun p => p.id == i) := by
    rw [regGet_registerAll, findLastRec_eq_find?_of_unique _ _ huniq, hjoin]
    cases roots.flatten.find? (fun p => p.id == i) <;> rfl
  refine ⟨hfilter, hget, ?_⟩
  have hnd : ((registerAll [] (discover_all roots)).map Prod.fst).Nodup :=
    nodupKeys_registerAll _ [] (by simp)
  rw [filterKeys_eq_find?_of_nodup _ _ hnd]
  have : ((registerAll [] (discover_all roots)).find? (fun kv => kv.1 == i)).isSome
      = (regGet (registerAll [] (discover_all roots)) i).isSome := by
    rw [regGet]
    cases (registerAll [] (discover_all roots)).find? (fun kv => kv.1 == i) <;> rfl
  cases hf : (registerAll [] (discover_all roots)).find? (fun kv => kv.1 == i) with
  | none =>
    rw [hf] at this
    rw [hget] at this
    cases hj : roots.flatten.find? (fun p => p.id == i) with
    | none => rfl
    | some q =>
      rw [hj] at this
      exact Bool.noConfusion this
  | some kv =>
    rw [hf] at this
    rw [hget] at this
    cases hj : roots.flatten.find? (fun p => p.id == i) with
    | none =>
      rw [hj] at this
      exact Bool.noConfusion this.symm
    | some q => rfl

/-- Result of `PluginManager.install_plugin`: the returned instance (if any),
the registry contents afterwards, and the list of filesystem copy operations
performed (destinations of `shutil.copytree`). -/
structure InstallOutcome where
  result : Option PluginRec
  registry : List (String × PluginRec)
  copies : List String
deriving DecidableEq, Repr

/-- `PluginManager.install_plugin` (`api/plugins/manager.py`): validate the
source via `discover_single` (abstracted as `sourceDisc`), fail on an id
conflict in the registry, fail if the destination directory exists, otherwise
copy the plugin to the installed root and register the re-discovered instance
(`rediscovered` abstracts the second `discover_single` at the destination). -/
def install_plugin (reg : List (String × PluginRec)) (sourceDisc : Option PluginRec)
    (destExists : Bool) (rediscovered : Option PluginRec) : InstallOutcome :=
  match sourceDisc with
  | none => ⟨none, reg, []⟩
  | some inst =>
    if regHas reg inst.id then ⟨none, reg, []⟩
    else if destExists then ⟨none, reg, []⟩
    else
      match rediscovered with
      | some inst2 => ⟨some inst2, registryRegister reg inst2, [inst.id]⟩
      | none => ⟨none, reg, [inst.id]⟩

/-- C7: installing a plugin whose id is already registered fails — no
instance is returned — and leaves the registry untouched (so the existing
registered instance is unmodified) and performs no filesystem copy. -/
theorem install_existing_id_fails (reg : List (String × PluginRec)) (inst : PluginRec)
    (destExists : Bool) (rediscovered : Option PluginRec)
    (h : regHas reg inst.id = true) :
    install_plugin reg (some inst) destExists rediscovered = ⟨none, reg, []⟩ := by
  simp [install_plugin, h]

/-- Witness for `install_existing_id_fails` at a concrete registry. -/
theorem install_existing_id_fails_witness :
    install_plugin [("a", ⟨"a", "bundled", "p1"⟩)] (some ⟨"a", "external", "p2"⟩) false
        (some ⟨"a", "installed", "p3"⟩)
      = ⟨none, [("a", ⟨"a", "bundled", "p1"⟩)], []⟩ :=
  install_existing_id_fails [("a", ⟨"a", "bundled", "p1"⟩)] ⟨"a", "external", "p2"⟩ false
    (some ⟨"a", "installed", "p3"⟩) (by decide)

/-- Fuel-driven core of `YunzhijiaHandler._clean_content`'s mention removal
(`re.sub(r'@\S+\s*', '', content)`): scanning left to right, an `@` followed
by at least one non-whitespace character consumes the `@`, the maximal
non-whitespace run after it and the maximal whitespace run after that;
every other character is kept.  The fuel starts at the list length, which
bounds the number of steps since every step consumes at least one
character. -/
def removeMentionsGo : Nat → List Char → List Char
| 0, s => s
| _ + 1, [] => []
| fuel + 1, c :: rest =>
  if c == '@' && (match rest with | [] => false | d :: _ => !d.isWhitespace) then
    removeMentionsGo fuel ((rest.dropWhile (fun x => !x.isWhitespace)).dropWhile Char.isWhitespace)
  else c :: removeMentionsGo fuel rest

/-- Mention removal over a character list. -/
def removeMentions (s : List Char) : List Char :=
  removeMentionsGo s.length s

/-- Python `str.strip()`: drop leading and trailing whitespace. -/
def stripChars (l : List Char) : List Char :=
  ((l.dropWhile Char.isWhitespace).reverse.dropWhile Char.isWhitespace).reverse

/-- `YunzhijiaHandler._clean_content`: strip `@mentions`, then whitespace at
both ends. -/
def clean_content (content : String) : String :=
  String.mk (stripChars (removeMentions content.data))

/-- Python `str.lower()` (ASCII-relevant here; the configured keywords and
FAQ keys contain no characters whose lowering differs). -/
def lowerStr (s : String) : String :=
  String.mk (s.data.map Char.toLower)

/-- Python's `needle in hay` substring test on character lists. -/
def containsSub (needle : List Char) : List Char → Bool
| [] => needle.isEmpty
| c :: rest => needle.isPrefixOf (c :: rest) || containsSub needle rest

/-- `YunzhijiaHandler.STOP_KEYWORDS`. -/
def STOP_KEYWORDS : List String := ["停止", "stop", "取消", "cancel"]

/-- `YunzhijiaHandler.MAX_STOP_COMMAND_LENGTH`. -/
def MAX_STOP_COMMAND_LENGTH : Nat := 10

/-- `YunzhijiaHandler._is_stop_command`: the cleaned content is at most 10
characters long and its lowercase form contains one of the stop keywords. -/
def is_stop_command (content : String) : Bool :=
  if (clean_content content).length > MAX_STOP_COMMAND_LENGTH then false
  else STOP_KEYWORDS.any (fun k => containsSub k.data (lowerStr (clean_content content)).data)

/-- `YunzhijiaHandler.FAQ_MAP`, in the source's insertion order. -/
def FAQ_MAP : List (String × String) :=
  [("你好，你能做什么呢?", "\"0幻觉\"回答发票云知识"),
   ("你好", "\"你好，我可0幻觉\"回答发票云知识，请有什么可以帮助您"),
   ("你能做什么", "\"0幻觉\"回答发票云知识"),
   ("能做什么", "\"0幻觉\"回答发票云知识")]

/-- The `for faq_key, faq_answer in FAQ_MAP.items()` loop of
`YunzhijiaHandler._match_faq`: first key whose lowercase form equals the
lowercase cleaned content wins. -/
def faqLookup : List (String × String) → String → Option String
| [], _ => none
| kv :: rest, cleaned =>
  if lowerStr cleaned = lowerStr kv.1 then some kv.2 else faqLookup rest cleaned

/-- `YunzhijiaHandler._match_faq`. -/
def match_faq (content : String) : Option String :=
  faqLookup FAQ_MAP (clean_content content)

/-- One option of an `AskUserQuestion` question dict (`label`,
`description`). -/
structure QuestionOption where
  label : String
  description : String
deriving DecidableEq, Repr

/-- One `AskUserQuestion` question dict (`question` text plus options). -/
structure Question where
  question : String
  options : List QuestionOption
deriving DecidableEq, Repr

/-- The `enumerate(options, 1)` loop of `_format_question`: one line per
option, numbered from 1, with ` - description` appended when the description
is truthy (non-empty). -/
def formatOptionLines : Nat → List QuestionOption → List String
| _, [] => []
| i, o :: rest =>
  (if o.description ≠ "" then toString i ++ ". " ++ o.label ++ " - " ++ o.description
   else toString i ++ ". " ++ o.label) :: formatOptionLines (i + 1) rest

/-- `YunzhijiaHandler._format_question`: question text, a blank line, then the
numbered options (the `robot_name` parameter is accepted but unused, exactly
as in the source). -/
def format_question (q : Question) (robot_name : Option String) : String :=
  String.intercalate "\n" ([q.question, ""] ++ formatOptionLines 1 q.options)

/-- Parsed agent stream events, mirroring the `event.get("event")` dispatch
of `_process_agent_stream` with their parsed `data` payloads. -/
inductive AgentEvent where
| session_created (session_id : String)
| ask_user_question (questions : List Question)
| result (res : Option String)
| errorEvent (message : String)
| other
deriving DecidableEq, Repr

/-- Outbound channel sends: `message_sender.send_text` and
`message_sender.send_with_images`. -/
inductive OutboundMessage where
| text (content : String)
| withImages (content : String)
deriving DecidableEq, Repr

/-- Python truthiness of `result_data.get("result")`: absent (`None`) and the
empty string are falsy. -/
def truthyStr : Option String → Bool
| none => false
| some s => !(s == "")

/-- The loop state of `_process_agent_stream`: `message_count`,
`has_sent_question`, the session mapper, and the outbound messages sent so
far. -/
structure StreamState where
  message_count : Nat
  has_sent_question : Bool
  mapper : Mapper
  msgs : List OutboundMessage

/-- The suffix appended to a final result before sending. -/
def replyHint : String := "\n\n👉 如还有疑问，可直接回复本消息"

/-- The generic error text prefix sent on an `error` event. -/
def errorReplyPrefix : String := "抱歉，处理时出现错误："

/-- The default fallback message sent when `message_count == 0` after the
stream ends. -/
def fallbackMessage : String := "抱歉，未能获取到答案，请稍后再试。"

/-- One iteration of the `async for event in ...` loop of
`_process_agent_stream`.  Note that the `error` branch sends a message but
does not increment `message_count`, exactly as in the source. -/
def stepEvent (yzj_session_id robot_name : String) (now : Int) (st : StreamState) :
    AgentEvent → StreamState
| AgentEvent.session_created sid =>
  { st with mapper := st.mapper.update_activity now yzj_session_id sid }
| AgentEvent.ask_user_question qs =>
  { st with
      has_sent_question := true,
      message_count := st.message_count + qs.length,
      msgs := st.msgs ++ qs.map (fun q => OutboundMessage.text (format_question q (some robot_name))) }
| AgentEvent.result r =>
  if st.has_sent_question then st
  else if truthyStr r then
    { st with
        message_count := st.message_count + 1,
        msgs := st.msgs ++ [OutboundMessage.withImages (r.getD "" ++ replyHint)] }
  else st
| AgentEvent.errorEvent m =>
  { st with msgs := st.msgs ++ [OutboundMessage.text (errorReplyPrefix ++ m)] }
| AgentEvent.other => st

/-- The whole event loop of `_process_agent_stream`, including the initial
`update_activity` for a resumed session (`request.session_id` present). -/
def streamFold (mapper : Mapper) (now : Int) (session_id : Option String)
    (yzj_session_id robot_name : String) (events : List AgentEvent) : StreamState :=
  events.foldl (stepEvent yzj_session_id robot_name now)
    ⟨0, false,
     (match session_id with
      | some a => mapper.update_activity now yzj_session_id a
      | none => mapper),
     []⟩

/-- `YunzhijiaHandler._process_agent_stream`: run the loop, then append the
fallback message exactly when `message_count == 0`.  Returns the outbound
messages in send order and the final mapper. -/
def process_agent_stream (mapper : Mapper) (now : Int) (session_id : Option String)
    (yzj_session_id robot_name : String) (events : List AgentEvent) :
    List OutboundMessage × Mapper :=
  let st := streamFold mapper now session_id yzj_session_id robot_name events
  if st.message_count = 0 then
    (st.msgs ++ [OutboundMessage.text fallbackMessage], st.mapper)
  else (st.msgs, st.mapper)

/-- Outcome of `YunzhijiaHandler.process_message`: the outbound messages, the
agent-session ids passed to `session_service.interrupt`, whether an agent
turn was started (step 3 onward reached), and the final mapper. -/
structure ProcessOutcome where
  messages : List OutboundMessage
  interrupts : List String
  agent_turn_started : Bool
  mapper : Mapper
deriving DecidableEq, Repr

/-- `YunzhijiaHandler._handle_stop_command`: look up the mapped agent session;
if present, interrupt it (the interrupt outcome is abstracted as
`interruptOk`) and report success or failure; otherwise send the
no-active-task message and interrupt nothing. -/
def handle_stop_command (mapper : Mapper) (now : Int) (yzj_session_id : String)
    (interruptOk : String → Bool) : ProcessOutcome :=
  match (mapper.get_or_create now yzj_session_id).1 with
  | some aid =>
    if interruptOk aid then
      ⟨[OutboundMessage.text "✅ 已停止当前任务"], [aid], false,
       (mapper.get_or_create now yzj_session_id).2⟩
    else
      ⟨[OutboundMessage.text "⚠️ 停止失败，会话可能已结束"], [aid], false,
       (mapper.get_or_create now yzj_session_id).2⟩
  | none =>
    ⟨[OutboundMessage.text "当前没有正在运行的任务"], [], false,
     (mapper.get_or_create now yzj_session_id).2⟩

/-- `YunzhijiaHandler.process_message`: sweep expired sessions, short-circuit
on an FAQ match, then on a stop command, and otherwise resolve the agent
session and run the agent stream (step 3 onward). -/
def process_message (mapper : Mapper) (now : Int) (content yzj_session_id robotName : String)
    (interruptOk : String → Bool) (events : List AgentEvent) : ProcessOutcome :=
  let m1 := mapper.cleanup_expired now
  match match_faq content with
  | some ans => ⟨[OutboundMessage.text ans], [], false, m1⟩
  | none =>
    if is_stop_command content then handle_stop_command m1 now yzj_session_id interruptOk
    else
      let r := m1.get_or_create now yzj_session_id
      let s := process_agent_stream r.2 now r.1 yzj_session_id
        (if robotName ≠ "" then "@" ++ robotName else "@机器人") events
      ⟨s.1, [], true, s.2⟩

/-- C4: a stream that emits an `ask_user_question` event carrying one
question and then a `result` event (with any result payload) produces exactly
one outbound message — the formatted question — and the result content is
suppressed. -/
theorem question_then_result_one_message (mapper : Mapper) (now : Int)
    (session_id : Option String) (yzj robot : String) (q : Question) (r : Option String) :
    (process_agent_stream mapper now session_id yzj robot
        [AgentEvent.ask_user_question [q], AgentEvent.result r]).1
      = [OutboundMessage.text (format_question q (some robot))] := rfl

/-- C5 counterexample: a stream consisting of a single `error` event.  The
translator sends the error message during consumption, yet still emits the
fallback message afterwards, because the error branch does not increment
`message_count` — so "an outbound message was produced" does not imply "no
fallback is emitted". -/
theorem error_still_gets_fallback_counterexample :
    (process_agent_stream ⟨3600, "yunzhijia", []⟩ 0 none "s" "@bot"
        [AgentEvent.errorEvent "x"]).1
      = [OutboundMessage.text (errorReplyPrefix ++ "x"),
         OutboundMessage.text fallbackMessage] := rfl

/-- Whether consuming the events (starting with `has_sent_question = hq`)
produces at least one counted message, i.e. a question message or an
unsuppressed truthy result message.  Error messages are not counted. -/
def producesCountedMessage : Bool → List AgentEvent → Bool
| _, [] => false
| _, AgentEvent.ask_user_question qs :: rest =>
  !qs.isEmpty || producesCountedMessage true rest
| hq, AgentEvent.result r :: rest =>
  (!hq && truthyStr r) || producesCountedMessage hq rest
| hq, AgentEvent.session_created _ :: rest => producesCountedMessage hq rest
| hq, AgentEvent.errorEvent _ :: rest => producesCountedMessage hq rest
| hq, AgentEvent.other :: rest => producesCountedMessage hq rest

theorem foldl_message_count_zero (yzj robot : String) (now : Int) (events : List AgentEvent)
    (st : StreamState) :
    ((events.foldl (stepEvent yzj robot now) st).message_count = 0)
      ↔ (st.message_count = 0 ∧ producesCountedMessage st.has_sent_question events = false) := by
  induction events generalizing st with
  | nil => simp [producesCountedMessage]
  | cons e rest ih =>
    rw [List.foldl_cons, ih]
    cases e with
    | session_created sid => rw [producesCountedMessage]; exact Iff.rfl
    | ask_user_question qs =>
      rw [producesCountedMessage]
      cases qs with
      | nil => simp [stepEvent]
      | cons q qs => simp [stepEvent]
    | result r =>
      rw [producesCountedMessage]
      by_cases hq : st.has_sent_question
      · simp [stepEvent, hq]
      · by_cases ht : truthyStr r = true
        · simp [stepEvent, hq, ht]
        · simp [stepEvent, hq, ht]
    | errorEvent m => rw [producesCountedMessage]; exact Iff.rfl
    | other => rw [producesCountedMessage]; exact Iff.rfl

/-- C5 amended: after full stream consumption the translator appends exactly
one fallback message if and only if no counted outbound message — a question
message or an unsuppressed result message — was produced while consuming the
stream.  Error-event messages are not counted by `message_count` in the
source, so an error message alone does not suppress the fallback. -/
theorem fallback_iff_no_counted_message (mapper : Mapper) (now : Int)
    (session_id : Option String) (yzj robot : String) (events : List AgentEvent) :
    process_agent_stream mapper now session_id yzj robot events
      = ((streamFold mapper now session_id yzj robot events).msgs
          ++ (if producesCountedMessage false events then []
              else [OutboundMessage.text fallbackMessage]),
         (streamFold mapper now session_id yzj robot events).mapper) := by
  have hsf : (streamFold mapper now session_id yzj robot events).message_count = 0
      ↔ producesCountedMessage false events = false := by
    unfold streamFold
    rw [foldl_message_count_zero]
    simp
  rw [process_agent_stream]
  by_cases hp : producesCountedMessage false events = true
  · rw [if_neg (fun hc => by rw [hsf, hp] at hc; exact Bool.noConfusion hc),
        if_pos hp, List.append_nil]
  · have hfalse : producesCountedMessage false events = false := by
      cases hpc : producesCountedMessage false events
      · rfl
      · exact absurd hpc hp
    rw [if_pos (hsf.mpr hfalse), if_neg hp]

theorem is_stop_command_eq_false_of_no_keyword (c : String)
    (h : STOP_KEYWORDS.any
      (fun k => containsSub k.data (lowerStr (clean_content c)).data) = false) :
    is_stop_command c = false := by
  unfold is_stop_command
  by_cases hl : (clean_content c).length > MAX_STOP_COMMAND_LENGTH
  · rw [if_pos hl]
  · rw [if_neg hl]
    exact h

theorem match_faq_some_not_stop (c ans : String) (h : match_faq c = some ans) :
    is_stop_command c = false := by
  unfold match_faq FAQ_MAP at h
  simp only [faqLookup] at h
  split_ifs at h with h1 h2 h3 h4
  · exact is_stop_command_eq_false_of_no_keyword c (by rw [h1]; decide)
  · exact is_stop_command_eq_false_of_no_keyword c (by rw [h2]; decide)
  · exact is_stop_command_eq_false_of_no_keyword c (by rw [h3]; decide)
  · exact is_stop_command_eq_false_of_no_keyword c (by rw [h4]; decide)

/-- C8: an inbound message whose mention-stripped text is a stop command
(at most 10 characters and containing a stop keyword), arriving when the
external session has no mapped agent session, produces exactly one
"no active task" outbound message, no interrupt call, and no agent turn. -/
theorem stop_command_without_session (mapper : Mapper) (now : Int)
    (content yzj robotName : String) (interruptOk : String → Bool)
    (events : List AgentEvent)
    (hstop : is_stop_command content = true)
    (hnone : ((mapper.cleanup_expired now).get_or_create now yzj).1 = none) :
    process_message mapper now content yzj robotName interruptOk events
      = ⟨[OutboundMessage.text "当前没有正在运行的任务"], [], false,
         ((mapper.cleanup_expired now).get_or_create now yzj).2⟩ := by
  have hfaq : match_faq content = none := by
    cases hm : match_faq content with
    | none => rfl
    | some ans =>
      rw [match_faq_some_not_stop content ans hm] at hstop
      exact Bool.noConfusion hstop
  unfold process_message handle_stop_command
  simp only [hfaq, hstop, hnone, eq_self_iff_true, if_true]

/-- Witness for `stop_command_without_session`: the concrete stop command
"停止" on an empty session map. -/
theorem stop_command_without_session_witness :
    process_message ⟨3600, "yunzhijia", []⟩ 0 "停止" "s" "bot" (fun _ => true) []
      = ⟨[OutboundMessage.text "当前没有正在运行的任务"], [], false, ⟨3600, "yunzhijia", []⟩⟩ :=
  stop_command_without_session ⟨3600, "yunzhijia", []⟩ 0 "停止" "s" "bot" (fun _ => true) []
    (by decide) (by decide)
